import Mathlib

/-!
The file pepper_wrapper.cc: the libc forwarding layer of mosh-chrome

A shallow embedding of `src/mosh_nacl/pepper_wrapper.cc`.

* Machine integers are `Int`/`Nat`; the target (Native Client) is ILP32 and
  little-endian, so `size_t`, `int` and `long` are 32 bits wide and the
  conversions the C code performs are written out with `%`.
* The process state the wrappers can touch is one record, `World`: `errno`,
  the state of the POSIX emulation singleton behind `GetPOSIX()`, the sink of
  `Log`, and the global interner `strings`.
* Pointers to memory the wrappers never look into (`buf`, `optval`, `fds`, ...)
  are plain addresses; the memory behind them belongs to the state of the
  POSIX emulation service.
-/

namespace PepperWrapper

/-! ## Constants of the system headers (Linux / Native Client ABI values) -/

/-- The `O_RDONLY` of `<fcntl.h>`. -/
def O_RDONLY : Int := 0
/-- The `O_WRONLY` of `<fcntl.h>`. -/
def O_WRONLY : Int := 1
/-- The `O_RDWR` of `<fcntl.h>`. -/
def O_RDWR : Int := 2
/-- The `ENOMEM` of `<errno.h>`. -/
def ENOMEM : Int := 12
/-- The `EINVAL` of `<errno.h>`. -/
def EINVAL : Int := 22
/-- The `EAGAIN` of `<errno.h>`. -/
def EAGAIN : Int := 11
/-- The `RLIMIT_STACK` of `<sys/resource.h>`. -/
def RLIMIT_STACK : Int := 3
/-- The `CODESET` item of `<langinfo.h>`. -/
def CODESET : Int := 14
/-- The `AF_INET` of `<sys/socket.h>`. -/
def AF_INET : Int := 2
/-- The `AF_INET6` of `<sys/socket.h>`. -/
def AF_INET6 : Int := 10
/-- The `AI_CANONNAME` flag of `<netdb.h>`. -/
def AI_CANONNAME : Int := 2
/-- The `EAI_FAIL` of `<netdb.h>`. -/
def EAI_FAIL : Int := -4
/-- The value of `sizeof(struct sockaddr_in)`. -/
def sizeof_sockaddr_in : Nat := 16
/-- The value of `sizeof(struct sockaddr_in6)`. -/
def sizeof_sockaddr_in6 : Nat := 28
/-- Width in bits of `size_t`, `ssize_t`, `int` and `long` on the target. -/
def WORD_BITS : Nat := 32

/-- An address; the null pointer is `0`. -/
abbrev Ptr := Nat

/-- Conversion of a signed value to `size_t`. -/
def to_size_t (x : Int) : Nat := (x % (2 : Int) ^ WORD_BITS).toNat

/-- The product of two `size_t` values, as the C expression `a*b` computes it. -/
def size_t_mul (a b : Nat) : Nat := (a * b) % 2 ^ WORD_BITS

/-! ## The string interner -/

/-- A `char[]` array on the heap: where it lives and what it holds. -/
structure CharBuf where
  addr : Ptr
  chars : List Char
deriving DecidableEq, Repr

/-- The `std::map<string, unique_ptr<char[]>>` of the interner, as an
association list with at most one entry per key. -/
abbrev StringMap := List (String × CharBuf)

/-- The value stored under a key: `find`, first match. -/
def StringMap.find (m : StringMap) (k : String) : Option CharBuf :=
  match m with
  | [] => none
  | (k', v) :: rest => if k' = k then some v else StringMap.find rest k

/-- The member `count(str)` of the map. -/
def StringMap.count (m : StringMap) (k : String) : Nat :=
  match m.find k with
  | some _ => 1
  | none => 0

/-- The assignment `m[str] = move(buf)`: the entry of `str` is created, or
replaced when there is one. -/
def StringMap.assign (m : StringMap) (k : String) (v : CharBuf) : StringMap :=
  (k, v) :: m.filter (fun e => decide (e.1 ≠ k))

/-- The class `BadInterning`: its only member is the map `strings_`. -/
structure BadInterning where
  strings_ : StringMap
deriving DecidableEq, Repr

/-- The NUL character. -/
def NUL : Char := Char.ofNat 0

/-- The member `BadInterning::Get`. `fresh` is the address the allocator hands out if
`make_unique<char[]>` is reached. The result is the returned `char*` (`none`
is the null pointer) and the interner afterwards. A `std::string` of the
32-bit target is shorter than `2^31`, so `int size = str.size()` keeps the
value. -/
def BadInterning.Get (self : BadInterning) (fresh : Ptr) (str : String) :
    Option CharBuf × BadInterning :=
  if self.strings_.count str = 0 then
    let size := str.length
    -- make_unique<char[]>(size+1): value-initialised
    let buf : List Char := List.replicate (size + 1) NUL
    -- str.copy(buf.get(), size)
    let buf := str.data.take size ++ buf.drop size
    -- buf.get()[size] = '\0'
    let buf := buf.set size NUL
    let strings_ := self.strings_.assign str ⟨fresh, buf⟩
    (strings_.find str, ⟨strings_⟩)
  else
    (self.strings_.find str, self)

/-- The invariant of the interner: every stored buffer holds the characters
of its key followed by NUL. It holds of the empty map the global `strings`
starts with, and `Get`, the only member that touches the map, keeps it. -/
def BadInterning.wf (self : BadInterning) : Bool :=
  self.strings_.all (fun e => decide (e.2.chars = e.1.data ++ [NUL]))

/-- The interner after a series of calls of `Get`, starting from the empty
map the global `strings` is constructed with; each call is listed with the
address the allocator has to offer at that moment. Every state the private
map can be in is of this form. -/
def BadInterning.after (calls : List (Ptr × String)) : BadInterning :=
  calls.foldl (fun T c => (T.Get c.1 c.2).2) ⟨[]⟩

/-! ## The process state -/

/-- One call of `Log(format, ...)`: the format string and its integer
arguments. -/
structure LogEntry where
  format : String
  args : List Int
deriving DecidableEq, Repr

/-- Everything the wrappers can read or change. `posix` is the state of the
singleton `GetPOSIX()` returns. -/
structure World (σ : Type) where
  errno : Int
  posix : σ
  log : List LogEntry
  strings : BadInterning
deriving DecidableEq, Repr

/-- Modelled from the spec: `Log` is declared in `pepper_wrapper.h` and
defined outside this file; the spec lists logging as an external collaborator
apart from the POSIX emulation service, so a call appends one entry to the
log sink and changes nothing else. -/
def Log {σ : Type} (format : String) (args : List Int) (w : World σ) : World σ :=
  { w with log := w.log ++ [⟨format, args⟩] }

/-! ## Resource limits -/

/-- The wrapper `getrlimit`, in the glibc build (`USE_NEWLIB = false`) and in the newlib
build. `rlim` is what the pointer points to; the result is the return value,
the pointee afterwards and the world afterwards. -/
def getrlimit {σ ρ : Type} (USE_NEWLIB : Bool) (resource : Int) (rlim : ρ) (w : World σ) :
    Int × ρ × World σ :=
  if USE_NEWLIB then
    (0, rlim, w)
  else if resource = RLIMIT_STACK then
    (-1, rlim, { w with errno := EAGAIN })
  else
    (0, rlim, w)

/-- The wrapper `setrlimit`, the same in both builds. -/
def setrlimit {σ ρ : Type} (_resource : Int) (rlim : ρ) (w : World σ) : Int × ρ × World σ :=
  (0, rlim, w)

/-! ## Locale -/

/-- The wrapper `nl_langinfo`. -/
def nl_langinfo {σ : Type} (item : Int) (fresh : Ptr) (w : World σ) :
    Option CharBuf × World σ :=
  if item = CODESET then
    let w := Log "nl_langinfo(CODESET)" [] w
    let r := w.strings.Get fresh "UTF-8"
    (r.1, { w with strings := r.2 })
  else
    let w := Log "nl_langinfo(%d)" [item] w
    let r := w.strings.Get fresh "Error"
    (r.1, { w with strings := r.2 })

/-! ## The POSIX emulation service and the wrappers that forward to it -/

/-- The interface of the object `GetPOSIX()` returns (the class is declared
outside this file): one state transformer per method, free to change `errno`,
its own state and the log. The variadic tail of `FCntl` is the `va_list`. -/
structure POSIX (σ : Type) where
  Open : String → Int → Int → World σ → Int × World σ
  Read : Int → Ptr → Nat → World σ → Int × World σ
  Write : Int → Ptr → Nat → World σ → Int × World σ
  Close : Int → World σ → Int × World σ
  Socket : Int → Int → Int → World σ → Int × World σ
  GetSockOpt : Int → Int → Int → Ptr → Ptr → World σ → Int × World σ
  Dup : Int → World σ → Int × World σ
  PSelect : Int → Ptr → Ptr → Ptr → Ptr → Ptr → World σ → Int × World σ
  Select : Int → Ptr → Ptr → Ptr → Ptr → World σ → Int × World σ
  Poll : Ptr → Nat → Int → World σ → Int × World σ
  Recv : Int → Ptr → Nat → Int → World σ → Int × World σ
  RecvMsg : Int → Ptr → Int → World σ → Int × World σ
  Send : Int → Ptr → Nat → Int → World σ → Int × World σ
  SendTo : Int → Ptr → Nat → Int → Ptr → Nat → World σ → Int × World σ
  FCntl : Int → Int → List Int → World σ → Int × World σ
  Connect : Int → Ptr → Nat → World σ → Int × World σ

section Wrappers

variable {σ : Type} (P : POSIX σ)

/-- The wrapper `open(pathname, flags, ...)`; `va` is the variadic tail (the mode). -/
def «open» (pathname : String) (flags : Int) (_va : List Int) (w : World σ) : Int × World σ :=
  P.Open pathname flags 0 w

/-- The wrapper `read`. -/
def read (fd : Int) (buf : Ptr) (count : Nat) (w : World σ) : Int × World σ :=
  P.Read fd buf count w

/-- The wrapper `write`. -/
def write (fd : Int) (buf : Ptr) (count : Nat) (w : World σ) : Int × World σ :=
  P.Write fd buf count w

/-- The wrapper `close`. -/
def close (fd : Int) (w : World σ) : Int × World σ :=
  P.Close fd w

/-- The wrapper `socket`. -/
def socket (domain type protocol : Int) (w : World σ) : Int × World σ :=
  P.Socket domain type protocol w

/-- The wrapper `bind`. -/
def bind (sockfd : Int) (_addr : Ptr) (_addrlen : Nat) (w : World σ) : Int × World σ :=
  let w := Log "bind(%d, ...): Not implemented" [sockfd] w
  let w := { w with errno := ENOMEM }
  (-1, w)

/-- The wrapper `setsockopt`. -/
def setsockopt (_sockfd _level _optname : Int) (_optval : Ptr) (_optlen : Nat)
    (w : World σ) : Int × World σ :=
  (0, w)

/-- The wrapper `getsockopt`. -/
def getsockopt (sockfd level optname : Int) (optval optlen : Ptr) (w : World σ) :
    Int × World σ :=
  P.GetSockOpt sockfd level optname optval optlen w

/-- The wrapper `dup`. -/
def dup (oldfd : Int) (w : World σ) : Int × World σ :=
  P.Dup oldfd w

/-- The wrapper `pselect`. -/
def pselect (nfds : Int) (readfds writefds exceptfds timeout sigmask : Ptr) (w : World σ) :
    Int × World σ :=
  P.PSelect nfds readfds writefds exceptfds timeout sigmask w

/-- The wrapper `select`. -/
def select (nfds : Int) (readfds writefds exceptfds timeout : Ptr) (w : World σ) :
    Int × World σ :=
  P.Select nfds readfds writefds exceptfds timeout w

/-- The wrapper `poll`. -/
def poll (fds : Ptr) (nfds : Nat) (timeout : Int) (w : World σ) : Int × World σ :=
  P.Poll fds nfds timeout w

/-- The wrapper `recv`. -/
def recv (sockfd : Int) (buf : Ptr) (len : Nat) (flags : Int) (w : World σ) : Int × World σ :=
  P.Recv sockfd buf len flags w

/-- The wrapper `recvmsg`. -/
def recvmsg (sockfd : Int) (msg : Ptr) (flags : Int) (w : World σ) : Int × World σ :=
  P.RecvMsg sockfd msg flags w

/-- The wrapper `send`. -/
def send (sockfd : Int) (buf : Ptr) (len : Nat) (flags : Int) (w : World σ) : Int × World σ :=
  P.Send sockfd buf len flags w

/-- The wrapper `sendto`. -/
def sendto (sockfd : Int) (buf : Ptr) (len : Nat) (flags : Int) (dest_addr : Ptr)
    (addrlen : Nat) (w : World σ) : Int × World σ :=
  P.SendTo sockfd buf len flags dest_addr addrlen w

/-- The wrapper `fcntl(fd, cmd, ...)`; `va` is the variadic tail, handed on as `argp`. -/
def fcntl (fd cmd : Int) (va : List Int) (w : World σ) : Int × World σ :=
  let argp := va
  let result := P.FCntl fd cmd argp w
  result

/-- The wrapper `connect`. -/
def connect (sockfd : Int) (addr : Ptr) (addrlen : Nat) (w : World σ) : Int × World σ :=
  P.Connect sockfd addr addrlen w

/-! ## Streams -/

/-- The `FILE` of the C library, of which the wrappers use one field: the
descriptor (`_fileno`, named `_file` under `USE_NEWLIB`), held as an `int`.
All other fields are zero. -/
structure FILE where
  _fileno : Int
deriving DecidableEq, Repr

/-- The wrapper `fopen`. `mode i` is the character `mode[i]`; the result is the returned
`FILE *` (`none` is the null pointer). -/
def fopen (path : String) (mode : Nat → Char) (w : World σ) : Option FILE × World σ :=
  if mode 1 = '+' then
    let r := «open» P path O_RDWR [] w
    (some ⟨r.1⟩, r.2)
  else if mode 0 = 'r' then
    let r := «open» P path O_RDONLY [] w
    (some ⟨r.1⟩, r.2)
  else if mode 0 = 'w' ∨ mode 0 = 'a' then
    let r := «open» P path O_WRONLY [] w
    (some ⟨r.1⟩, r.2)
  else
    (none, { w with errno := EINVAL })

/-- The wrapper `fread`; the `ssize_t` of `read` is returned as a `size_t`. -/
def fread (ptr : Ptr) (size nmemb : Nat) (stream : FILE) (w : World σ) : Nat × World σ :=
  let fd := stream._fileno
  let r := read P fd ptr (size_t_mul size nmemb) w
  (to_size_t r.1, r.2)

/-- The wrapper `fwrite`; the `ssize_t` of `write` is returned as a `size_t`. -/
def fwrite (ptr : Ptr) (size nmemb : Nat) (stream : FILE) (w : World σ) : Nat × World σ :=
  let fd := stream._fileno
  let r := write P fd ptr (size_t_mul size nmemb) w
  (to_size_t r.1, r.2)

/-- The wrapper `fileno`. -/
def fileno (stream : FILE) : Int :=
  stream._fileno

end Wrappers

/-- The characters of a C string literal as `mode[i]` reads them: the
characters, then NUL. -/
def c_str (s : String) : Nat → Char := fun i => s.data.getD i NUL

/-! ## The C library functions `getaddrinfo` calls -/

/-- The characters of a C string: those before the first NUL. -/
def c_chars (s : String) : List Char := s.data.takeWhile (fun c => decide (c ≠ NUL))

/-- The `isspace` of the C locale. -/
def isspace (c : Char) : Bool := decide (c.toNat = 32 ∨ (9 ≤ c.toNat ∧ c.toNat ≤ 13))

/-- The `isdigit` of the C locale. -/
def isdigit (c : Char) : Bool := decide (48 ≤ c.toNat ∧ c.toNat ≤ 57)

/-- The digit loop of `strtol` in base 10: the value of the longest prefix of
digits, starting from `acc`. -/
def strtol_digits (acc : Nat) : List Char → Nat
  | [] => acc
  | c :: cs => if isdigit c then strtol_digits (10 * acc + (c.toNat - 48)) cs else acc

/-- The C library `strtol(s, NULL, 10)` with a 32-bit `long`: white space, an
optional sign, digits; `0` when there is no digit; clamped to the range of
`long`. -/
def strtol10 (s : List Char) : Int :=
  let s := s.dropWhile isspace
  match s with
  | [] => 0
  | c :: t =>
    if c = '-' then max (-(strtol_digits 0 t : Int)) (-(2 : Int) ^ 31)
    else if c = '+' then min (strtol_digits 0 t : Int) ((2 : Int) ^ 31 - 1)
    else min (strtol_digits 0 (c :: t) : Int) ((2 : Int) ^ 31 - 1)

/-- The C library `atoi`: `(int) strtol(nptr, NULL, 10)`. -/
def atoi (nptr : String) : Int := strtol10 (c_chars nptr)

/-- Conversion of an `int` to `uint16_t`. -/
def to_uint16 (x : Int) : Nat := (x % 65536).toNat

/-- The C library `htons` on a little-endian host: the two bytes swapped. -/
def htons (hostshort : Nat) : Nat := (hostshort % 256) * 256 + hostshort / 256 % 256

/-- The two bytes a `uint16_t` occupies in memory on a little-endian host, in
address order. -/
def uint16_bytes (v : Nat) : List Nat := [v % 256, v / 256 % 256]

/-- State of the loop of `inet_pton4`: the octets finished (`tmp` below `tp`),
the octet under construction (`*tp`), `saw_digit` and `octets`. -/
structure Pton4 where
  done : List Nat
  cur : Nat
  saw_digit : Bool
  octets : Nat
deriving DecidableEq, Repr

/-- The loop of the C library `inet_pton4` over the characters of `src`;
`none` is `return 0`. -/
def inet_pton4_loop : List Char → Pton4 → Option Pton4
  | [], st => some st
  | ch :: src, st =>
    if isdigit ch then
      let new := st.cur * 10 + (ch.toNat - 48)
      if st.saw_digit = true ∧ st.cur = 0 then none
      else if new > 255 then none
      else if st.saw_digit = false then
        if st.octets + 1 > 4 then none
        else inet_pton4_loop src { st with cur := new, octets := st.octets + 1, saw_digit := true }
      else inet_pton4_loop src { st with cur := new }
    else if ch = '.' ∧ st.saw_digit = true then
      if st.octets = 4 then none
      else inet_pton4_loop src { st with done := st.done ++ [st.cur], cur := 0, saw_digit := false }
    else none

/-- The C library `inet_pton4` (after the ISC parser that C libraries ship): four
decimal octets separated by dots. The result is the four bytes written to
`dst`, in address order; `none` is `return 0`. -/
def inet_pton4 (src : List Char) : Option (List Nat) :=
  match inet_pton4_loop src ⟨[], 0, false, 0⟩ with
  | none => none
  | some st => if st.octets < 4 then none else some (st.done ++ [st.cur])

/-- The value of a hexadecimal digit, either case. -/
def xdigit_value (ch : Char) : Option Nat :=
  let n := ch.toNat
  if 48 ≤ n ∧ n ≤ 57 then some (n - 48)
  else if 97 ≤ n ∧ n ≤ 102 then some (n - 87)
  else if 65 ≤ n ∧ n ≤ 70 then some (n - 55)
  else none

/-- State of the loop of `inet_pton6`: the bytes written (`tmp` below `tp`),
the offset `colonp` of a `::`, the token `curtok`, `saw_xdigit` and `val`. -/
structure Pton6 where
  out : List Nat
  colonp : Option Nat
  curtok : List Char
  saw_xdigit : Bool
  val : Nat
deriving DecidableEq, Repr

/-- The loop of the C library `inet_pton6`; `none` is `return 0`. -/
def inet_pton6_loop : List Char → Pton6 → Option Pton6
  | [], st => some st
  | ch :: src, st =>
    match xdigit_value ch with
    | some d =>
      let val := st.val * 16 + d
      if val > 65535 then none
      else inet_pton6_loop src { st with val := val, saw_xdigit := true }
    | none =>
      if ch = ':' then
        if st.saw_xdigit = false then
          if st.colonp.isSome then none
          else inet_pton6_loop src { st with curtok := src, colonp := some st.out.length }
        else if src = [] then none
        else if st.out.length + 2 > 16 then none
        else inet_pton6_loop src
          { st with out := st.out ++ [st.val / 256 % 256, st.val % 256], curtok := src,
                    saw_xdigit := false, val := 0 }
      else if ch = '.' ∧ st.out.length + 4 ≤ 16 then
        match inet_pton4 st.curtok with
        | some v4 => some { st with out := st.out ++ v4, saw_xdigit := false }
        | none => none
      else none

/-- What `inet_pton6` does after its loop: the pending group is written, a
`::` is expanded to zeros, and the result must fill the 16 bytes. -/
def inet_pton6_finish (st : Pton6) : Option (List Nat) :=
  let out? : Option (List Nat) :=
    if st.saw_xdigit = true then
      if st.out.length + 2 > 16 then none
      else some (st.out ++ [st.val / 256 % 256, st.val % 256])
    else some st.out
  match out? with
  | none => none
  | some out =>
    let out? : Option (List Nat) :=
      match st.colonp with
      | some c =>
        if out.length = 16 then none
        else some (out.take c ++ List.replicate (16 - out.length) 0 ++ out.drop c)
      | none => some out
    match out? with
    | none => none
    | some out => if out.length ≠ 16 then none else some out

/-- The C library `inet_pton6` (the ISC parser): the 16 bytes written to
`dst`; `none` is `return 0`. -/
def inet_pton6 (src : List Char) : Option (List Nat) :=
  let start : Option (List Char) :=
    match src with
    | [] => some []
    | c :: rest =>
      if c = ':' then
        match rest with
        | [] => none
        | c2 :: _ => if c2 = ':' then some rest else none
      else some (c :: rest)
  match start with
  | none => none
  | some src =>
    match inet_pton6_loop src ⟨[], none, src, false, 0⟩ with
    | none => none
    | some st => inet_pton6_finish st

/-- The C library `inet_pton(af, src, dst)`: `some bytes` when it returns 1,
with the bytes it wrote to `dst`; `none` when it returns 0 or -1. -/
def libc_inet_pton (af : Int) (src : String) : Option (List Nat) :=
  if af = AF_INET then inet_pton4 (c_chars src)
  else if af = AF_INET6 then inet_pton6 (c_chars src)
  else none

/-! ## getaddrinfo -/

/-- The `struct sockaddr_in`: family, port (the `uint16_t` as the host reads
it) and the four bytes of `sin_addr.s_addr` in address order; `sin_zero` is
zero. -/
structure sockaddr_in where
  sin_family : Int
  sin_port : Nat
  sin_addr : List Nat
deriving DecidableEq, Repr

/-- The `struct sockaddr_in6`. -/
structure sockaddr_in6 where
  sin6_family : Int
  sin6_port : Nat
  sin6_flowinfo : Nat
  sin6_addr : List Nat
  sin6_scope_id : Nat
deriving DecidableEq, Repr

/-- What a `struct sockaddr *` points to. -/
inductive sockaddr where
  | in4 (a : sockaddr_in)
  | in6 (a : sockaddr_in6)
deriving DecidableEq, Repr

/-- The member `sa_family` read through a `struct sockaddr *`. -/
def sockaddr.sa_family : sockaddr → Int
  | .in4 a => a.sin_family
  | .in6 a => a.sin6_family

/-- A `struct addrinfo *`: null, or a `struct addrinfo` with its members. -/
inductive addrinfo_ptr where
  | null
  | obj (ai_flags ai_family ai_socktype ai_protocol : Int) (ai_addrlen : Nat)
      (ai_addr : Option sockaddr) (ai_canonname : Option String) (ai_next : addrinfo_ptr)
deriving DecidableEq, Repr

/-- Number of entries of the list a `struct addrinfo *` starts. -/
def addrinfo_ptr.length : addrinfo_ptr → Nat
  | .null => 0
  | .obj _ _ _ _ _ _ _ next => next.length + 1

/-- Lines 260-263: `ai_protocol` and `ai_socktype` are taken from `hints`
when `hints` is not null; `ai` is the zeroed entry with its address set. -/
def copy_hints (hints : addrinfo_ptr) (ai : addrinfo_ptr) : addrinfo_ptr :=
  match ai, hints with
  | .obj fl fam _ _ len addr cn next, .obj _ _ socktype protocol _ _ _ _ =>
      .obj fl fam socktype protocol len addr cn next
  | ai, _ => ai

/-- The wrapper `getaddrinfo`. `inet_pton` is the C library function (see
`libc_inet_pton`); `res` is what `*res` holds before the call. The result is
`none` when the call dereferences a null `hints`; otherwise the return value,
what `*res` holds afterwards and the world afterwards. -/
def getaddrinfo {σ : Type} (inet_pton : Int → String → Option (List Nat))
    (node service : String) (hints : addrinfo_ptr) (res : addrinfo_ptr) (w : World σ) :
    Option (Int × addrinfo_ptr × World σ) :=
  match hints with
  | .null => none
  | .obj ai_flags _ _ _ _ _ _ _ =>
    if Int.land ai_flags AI_CANONNAME ≠ 0 then
      some (EAI_FAIL, res, Log "getaddrinfo(): AI_CANONNAME not implemented." [] w)
    else
      let parsed : Option (sockaddr × Nat) :=
        match inet_pton AF_INET node with
        | some ip4_addr =>
          some (.in4 { sin_family := AF_INET, sin_addr := ip4_addr,
                       sin_port := htons (to_uint16 (atoi service)) }, sizeof_sockaddr_in)
        | none =>
          match inet_pton AF_INET6 node with
          | some ip6_addr =>
            some (.in6 { sin6_family := AF_INET6, sin6_addr := ip6_addr,
                         sin6_port := htons (to_uint16 (atoi service)),
                         sin6_flowinfo := 0, sin6_scope_id := 0 }, sizeof_sockaddr_in6)
          | none => none
      match parsed with
      | none => some (EAI_FAIL, res, Log "getaddrinfo(): Cannot parse address." [] w)
      | some (addr, addr_size) =>
        let ai := addrinfo_ptr.obj 0 addr.sa_family 0 0 addr_size (some addr) none .null
        let ai := copy_hints hints ai
        some (0, ai, w)

/-- The member `ai_flags` of what a non-null `struct addrinfo *` points to. -/
def addrinfo_ptr.ai_flags : addrinfo_ptr → Int
  | .null => 0
  | .obj fl _ _ _ _ _ _ _ => fl

/-- The member `ai_family`. -/
def addrinfo_ptr.ai_family : addrinfo_ptr → Int
  | .null => 0
  | .obj _ fam _ _ _ _ _ _ => fam

/-- The member `ai_socktype`. -/
def addrinfo_ptr.ai_socktype : addrinfo_ptr → Int
  | .null => 0
  | .obj _ _ st _ _ _ _ _ => st

/-- The member `ai_protocol`. -/
def addrinfo_ptr.ai_protocol : addrinfo_ptr → Int
  | .null => 0
  | .obj _ _ _ pr _ _ _ _ => pr

/-- The member `ai_addr`. -/
def addrinfo_ptr.ai_addr : addrinfo_ptr → Option sockaddr
  | .null => none
  | .obj _ _ _ _ _ addr _ _ => addr

/-- The port member (`sin_port` or `sin6_port`) of a socket address. -/
def sockaddr.port : sockaddr → Nat
  | .in4 a => a.sin_port
  | .in6 a => a.sin6_port

/-- Spec-side definition of "a decimal string": at least one character, all
of them decimal digits. -/
def is_decimal (service : String) : Bool :=
  decide (service.data ≠ []) && service.data.all isdigit

/-- Spec-side definition of the value of a decimal string: its digits read in
base 10, most significant first. -/
def decimal_value (service : String) : Nat :=
  service.data.foldl (fun n c => 10 * n + (c.toNat - 48)) 0

/-- A small implementation of the service, for running the wrappers: its
state is the list of the paths opened so far, `Open` returns `3 + flags`, or
-1 with `errno = 2` for the empty path, and every other method returns 0. -/
def sample_posix : POSIX (List String) where
  Open := fun pathname flags _ w =>
    if pathname = "" then (-1, { w with errno := 2 })
    else (3 + flags, { w with posix := w.posix ++ [pathname] })
  Read := fun _ _ _ w => (0, w)
  Write := fun _ _ _ w => (0, w)
  Close := fun _ w => (0, w)
  Socket := fun _ _ _ w => (0, w)
  GetSockOpt := fun _ _ _ _ _ w => (0, w)
  Dup := fun _ w => (0, w)
  PSelect := fun _ _ _ _ _ _ w => (0, w)
  Select := fun _ _ _ _ _ w => (0, w)
  Poll := fun _ _ _ w => (0, w)
  Recv := fun _ _ _ _ w => (0, w)
  RecvMsg := fun _ _ _ w => (0, w)
  Send := fun _ _ _ _ w => (0, w)
  SendTo := fun _ _ _ _ _ _ w => (0, w)
  FCntl := fun _ _ _ w => (0, w)
  Connect := fun _ _ _ w => (0, w)

/-- A world for `sample_posix` in which nothing has happened yet. -/
def sample_world : World (List String) := ⟨0, [], [], ⟨[]⟩⟩

/-- A world with nothing in it, over a service without state. -/
def World.empty : World Unit := ⟨0, (), [], ⟨[]⟩⟩

/-- A `hints` as a caller fills it in: only `ai_socktype` and `ai_protocol`
set. -/
def mk_hints (ai_flags ai_socktype ai_protocol : Int) : addrinfo_ptr :=
  .obj ai_flags 0 ai_socktype ai_protocol 0 none none .null

/-! ## Stubs: `bind`, `setsockopt`, resource limits -/

/-- C5: `bind` fails for every descriptor, address and length: it returns -1,
`errno` is `ENOMEM` afterwards, and the state of the POSIX emulation service
is what it was (only the log grows, by one entry). -/
theorem bind_always_fails {σ : Type} (sockfd : Int) (addr : Ptr) (addrlen : Nat)
    (w : World σ) :
    (bind sockfd addr addrlen w).1 = -1 ∧
    (bind sockfd addr addrlen w).2.errno = ENOMEM ∧
    (bind sockfd addr addrlen w).2.posix = w.posix ∧
    (bind sockfd addr addrlen w).2.strings = w.strings ∧
    (bind sockfd addr addrlen w).2.log =
      w.log ++ [⟨"bind(%d, ...): Not implemented", [sockfd]⟩] :=
  ⟨rfl, rfl, rfl, rfl, rfl⟩

/-- C6: `setsockopt` returns 0 for every descriptor, level, option, value and
length, and leaves the whole world (`errno`, the POSIX emulation service, the
log) as it was. -/
theorem setsockopt_noop {σ : Type} (sockfd level optname : Int) (optval : Ptr)
    (optlen : Nat) (w : World σ) :
    setsockopt sockfd level optname optval optlen w = (0, w) ∧
    (setsockopt sockfd level optname optval optlen w).2.errno = w.errno ∧
    (setsockopt sockfd level optname optval optlen w).2.posix = w.posix :=
  ⟨rfl, rfl, rfl⟩

/-- C8: in the glibc build `getrlimit` returns -1 with `errno = EAGAIN`
exactly when the resource is `RLIMIT_STACK` and returns 0 with the world
unchanged otherwise; in the newlib build it returns 0 with the world
unchanged; `setrlimit` returns 0 with the world unchanged; none of them
changes what the `rlimit` pointer points to. -/
theorem rlimit_stubs {σ ρ : Type} (resource : Int) (rlim : ρ) (w : World σ) :
    (((getrlimit false resource rlim w).1 = -1 ∧
        (getrlimit false resource rlim w).2.2.errno = EAGAIN) ↔ resource = RLIMIT_STACK) ∧
    (resource = RLIMIT_STACK →
      getrlimit false resource rlim w = (-1, rlim, { w with errno := EAGAIN })) ∧
    (resource ≠ RLIMIT_STACK → getrlimit false resource rlim w = (0, rlim, w)) ∧
    (getrlimit false resource rlim w).2.1 = rlim ∧
    (getrlimit false resource rlim w).2.2.posix = w.posix ∧
    getrlimit true resource rlim w = (0, rlim, w) ∧
    setrlimit resource rlim w = (0, rlim, w) := by
  by_cases h : resource = RLIMIT_STACK
  · simp [getrlimit, setrlimit, h]
  · simp [getrlimit, setrlimit, h]

/-! ## Delegation -/

/-- A value in the range of `size_t` is unchanged by the conversion. -/
theorem to_size_t_of_range (x : Int) (h0 : 0 ≤ x) (hlt : x < 2 ^ WORD_BITS) :
    (to_size_t x : Int) = x := by
  unfold to_size_t
  rw [Int.emod_eq_of_lt h0 hlt]
  exact Int.toNat_of_nonneg h0

/-- C7: for every implementation `P` of the POSIX emulation service and all
arguments, each forwarding wrapper is the service method of the same name
applied once to the same arguments in the same order (same return value,
same world afterwards); `open` passes 0 as third argument whatever its
variadic tail holds; `fread` and `fwrite` are `read` and `write` on the
descriptor of the stream with the `size_t` product `size*nmemb` as byte
count, their result returned as a `size_t`, which is the very same number
whenever the result is not negative and the product fits in a `size_t`. -/
theorem wrappers_delegate {σ : Type} (P : POSIX σ) (w : World σ) :
    (∀ pathname flags va, «open» P pathname flags va w = P.Open pathname flags 0 w) ∧
    (∀ fd buf count, read P fd buf count w = P.Read fd buf count w) ∧
    (∀ fd buf count, write P fd buf count w = P.Write fd buf count w) ∧
    (∀ fd, close P fd w = P.Close fd w) ∧
    (∀ domain type protocol, socket P domain type protocol w = P.Socket domain type protocol w) ∧
    (∀ sockfd level optname optval optlen,
      getsockopt P sockfd level optname optval optlen w =
        P.GetSockOpt sockfd level optname optval optlen w) ∧
    (∀ oldfd, dup P oldfd w = P.Dup oldfd w) ∧
    (∀ nfds readfds writefds exceptfds timeout,
      select P nfds readfds writefds exceptfds timeout w =
        P.Select nfds readfds writefds exceptfds timeout w) ∧
    (∀ nfds readfds writefds exceptfds timeout sigmask,
      pselect P nfds readfds writefds exceptfds timeout sigmask w =
        P.PSelect nfds readfds writefds exceptfds timeout sigmask w) ∧
    (∀ fds nfds timeout, poll P fds nfds timeout w = P.Poll fds nfds timeout w) ∧
    (∀ sockfd buf len flags, recv P sockfd buf len flags w = P.Recv sockfd buf len flags w) ∧
    (∀ sockfd msg flags, recvmsg P sockfd msg flags w = P.RecvMsg sockfd msg flags w) ∧
    (∀ sockfd buf len flags, send P sockfd buf len flags w = P.Send sockfd buf len flags w) ∧
    (∀ sockfd buf len flags dest_addr addrlen,
      sendto P sockfd buf len flags dest_addr addrlen w =
        P.SendTo sockfd buf len flags dest_addr addrlen w) ∧
    (∀ fd cmd va, fcntl P fd cmd va w = P.FCntl fd cmd va w) ∧
    (∀ sockfd addr addrlen, connect P sockfd addr addrlen w = P.Connect sockfd addr addrlen w) ∧
    (∀ ptr size nmemb stream,
      fread P ptr size nmemb stream w =
        (to_size_t (read P (fileno stream) ptr (size_t_mul size nmemb) w).1,
          (read P (fileno stream) ptr (size_t_mul size nmemb) w).2)) ∧
    (∀ ptr size nmemb stream,
      fwrite P ptr size nmemb stream w =
        (to_size_t (write P (fileno stream) ptr (size_t_mul size nmemb) w).1,
          (write P (fileno stream) ptr (size_t_mul size nmemb) w).2)) ∧
    (∀ ptr size nmemb stream, size * nmemb < 2 ^ WORD_BITS →
      0 ≤ (read P (fileno stream) ptr (size * nmemb) w).1 →
      (read P (fileno stream) ptr (size * nmemb) w).1 < 2 ^ WORD_BITS →
      ((fread P ptr size nmemb stream w).1 : Int) =
          (read P (fileno stream) ptr (size * nmemb) w).1 ∧
        (fread P ptr size nmemb stream w).2 =
          (read P (fileno stream) ptr (size * nmemb) w).2) ∧
    (∀ ptr size nmemb stream, size * nmemb < 2 ^ WORD_BITS →
      0 ≤ (write P (fileno stream) ptr (size * nmemb) w).1 →
      (write P (fileno stream) ptr (size * nmemb) w).1 < 2 ^ WORD_BITS →
      ((fwrite P ptr size nmemb stream w).1 : Int) =
          (write P (fileno stream) ptr (size * nmemb) w).1 ∧
        (fwrite P ptr size nmemb stream w).2 =
          (write P (fileno stream) ptr (size * nmemb) w).2) := by
  refine ⟨fun _ _ _ => rfl, fun _ _ _ => rfl, fun _ _ _ => rfl, fun _ => rfl,
    fun _ _ _ => rfl, fun _ _ _ _ _ => rfl, fun _ => rfl, fun _ _ _ _ _ => rfl,
    fun _ _ _ _ _ _ => rfl, fun _ _ _ => rfl, fun _ _ _ _ => rfl, fun _ _ _ => rfl,
    fun _ _ _ _ => rfl, fun _ _ _ _ _ _ => rfl, fun _ _ _ => rfl, fun _ _ _ => rfl,
    fun _ _ _ _ => rfl, fun _ _ _ _ => rfl, ?_, ?_⟩
  · intro ptr size nmemb stream hmul h0 hlt
    have hm : size_t_mul size nmemb = size * nmemb := Nat.mod_eq_of_lt hmul
    simp only [fread, hm]
    exact ⟨to_size_t_of_range _ h0 hlt, rfl⟩
  · intro ptr size nmemb stream hmul h0 hlt
    have hm : size_t_mul size nmemb = size * nmemb := Nat.mod_eq_of_lt hmul
    simp only [fwrite, hm]
    exact ⟨to_size_t_of_range _ h0 hlt, rfl⟩

/-! ## fopen -/

/-- C9: `fopen` looks at `mode[0]` and `mode[1]` only; it opens with `O_RDWR`
when `mode[1]` is `+`, else with `O_RDONLY` when `mode[0]` is `r`, else with
`O_WRONLY` when `mode[0]` is `w` or `a`; for every other mode it returns null
with `errno = EINVAL` and the world otherwise untouched (no call of `open`).
For an accepted mode the stream is not null and `fileno` of it is the value
`open(path, flags)` returned, whatever that value is. -/
theorem fopen_mode_flags {σ : Type} (P : POSIX σ) (path : String) (mode : Nat → Char)
    (w : World σ) :
    (∀ mode2 : Nat → Char, mode2 0 = mode 0 → mode2 1 = mode 1 →
      fopen P path mode2 w = fopen P path mode w) ∧
    (mode 1 = '+' →
      fopen P path mode w =
        (some ⟨(«open» P path O_RDWR [] w).1⟩, («open» P path O_RDWR [] w).2)) ∧
    (mode 1 ≠ '+' → mode 0 = 'r' →
      fopen P path mode w =
        (some ⟨(«open» P path O_RDONLY [] w).1⟩, («open» P path O_RDONLY [] w).2)) ∧
    (mode 1 ≠ '+' → mode 0 = 'w' ∨ mode 0 = 'a' →
      fopen P path mode w =
        (some ⟨(«open» P path O_WRONLY [] w).1⟩, («open» P path O_WRONLY [] w).2)) ∧
    (mode 1 ≠ '+' → mode 0 ≠ 'r' → mode 0 ≠ 'w' → mode 0 ≠ 'a' →
      fopen P path mode w = (none, { w with errno := EINVAL })) ∧
    (∀ stream, (fopen P path mode w).1 = some stream →
      ∃ flags, (flags = O_RDWR ∨ flags = O_RDONLY ∨ flags = O_WRONLY) ∧
        fileno stream = («open» P path flags [] w).1 ∧
        (fopen P path mode w).2 = («open» P path flags [] w).2) := by
  refine ⟨?_, ?_, ?_, ?_, ?_, ?_⟩
  · intro mode2 h0 h1
    simp [fopen, h0, h1]
  · intro h1
    simp [fopen, h1]
  · intro h1 h0
    simp [fopen, h1, h0]
  · intro h1 h0
    have hr : mode 0 ≠ 'r' := by
      rcases h0 with h | h <;> rw [h] <;> decide
    simp [fopen, h1, hr, h0]
  · intro h1 hr hw ha
    simp [fopen, h1, hr, hw, ha]
  · intro stream hs
    unfold fopen at hs ⊢
    by_cases h1 : mode 1 = '+'
    · simp only [h1, if_true] at hs ⊢
      exact ⟨O_RDWR, Or.inl rfl, by cases hs; rfl, rfl⟩
    · by_cases hr : mode 0 = 'r'
      · simp only [h1, hr, if_true, if_false] at hs ⊢
        exact ⟨O_RDONLY, Or.inr (Or.inl rfl), by cases hs; rfl, rfl⟩
      · by_cases hwa : mode 0 = 'w' ∨ mode 0 = 'a'
        · simp only [h1, hr, hwa, if_true, if_false] at hs ⊢
          exact ⟨O_WRONLY, Or.inr (Or.inr rfl), by cases hs; rfl, rfl⟩
        · simp only [h1, hr, hwa, if_false] at hs
          cases hs

/-- The wrapper `fopen` run on `sample_posix`: the flags chosen for a few
modes, a mode that is refused, and a path `open` fails on. -/
theorem fopen_examples :
    fopen sample_posix "/dev/urandom" (c_str "r") sample_world =
      (some ⟨3 + O_RDONLY⟩, { sample_world with posix := ["/dev/urandom"] }) ∧
    fopen sample_posix "/dev/stderr" (c_str "w") sample_world =
      (some ⟨3 + O_WRONLY⟩, { sample_world with posix := ["/dev/stderr"] }) ∧
    fopen sample_posix "/dev/stderr" (c_str "a") sample_world =
      (some ⟨3 + O_WRONLY⟩, { sample_world with posix := ["/dev/stderr"] }) ∧
    fopen sample_posix "f" (c_str "r+") sample_world =
      (some ⟨3 + O_RDWR⟩, { sample_world with posix := ["f"] }) ∧
    fopen sample_posix "f" (c_str "x+") sample_world =
      (some ⟨3 + O_RDWR⟩, { sample_world with posix := ["f"] }) ∧
    fopen sample_posix "f" (c_str "x") sample_world =
      (none, { sample_world with errno := EINVAL }) ∧
    fopen sample_posix "f" (c_str "") sample_world =
      (none, { sample_world with errno := EINVAL }) ∧
    fopen sample_posix "" (c_str "r") sample_world =
      (some ⟨-1⟩, { sample_world with errno := 2 }) := by
  decide

/-! ## The interner -/

theorem StringMap.find_mem (m : StringMap) (k : String) (b : CharBuf)
    (h : m.find k = some b) : (k, b) ∈ m := by
  induction m with
  | nil => simp [StringMap.find] at h
  | cons e rest ih =>
    obtain ⟨k', v⟩ := e
    unfold StringMap.find at h
    by_cases hk : k' = k
    · simp only [hk, if_true, Option.some.injEq] at h
      subst hk; subst h
      exact List.mem_cons_self _ _
    · simp only [hk, if_false] at h
      exact List.mem_cons_of_mem _ (ih h)

theorem StringMap.find_filter_ne (m : StringMap) (t s : String) (h : t ≠ s) :
    StringMap.find (m.filter (fun e => decide (e.1 ≠ t))) s = StringMap.find m s := by
  induction m with
  | nil => rfl
  | cons e rest ih =>
    obtain ⟨k', v⟩ := e
    by_cases hk : k' = t
    · have hks : ¬ k' = s := by rw [hk]; exact h
      have hf : List.filter (fun e : String × CharBuf => decide (e.1 ≠ t)) ((k', v) :: rest) =
          List.filter (fun e : String × CharBuf => decide (e.1 ≠ t)) rest :=
        List.filter_cons_of_neg (by simp [hk])
      rw [hf, ih]
      simp only [StringMap.find, hks, if_false]
    · have hf : List.filter (fun e : String × CharBuf => decide (e.1 ≠ t)) ((k', v) :: rest) =
          (k', v) :: List.filter (fun e : String × CharBuf => decide (e.1 ≠ t)) rest :=
        List.filter_cons_of_pos (by simp [hk])
      rw [hf]
      by_cases hks : k' = s
      · simp only [StringMap.find, hks, if_true]
      · simp only [StringMap.find, hks, if_false]
        exact ih

theorem StringMap.find_assign_self (m : StringMap) (k : String) (v : CharBuf) :
    StringMap.find (m.assign k v) k = some v := by
  simp [StringMap.assign, StringMap.find]

theorem StringMap.find_assign_ne (m : StringMap) (t s : String) (v : CharBuf) (h : t ≠ s) :
    StringMap.find (m.assign t v) s = StringMap.find m s := by
  unfold StringMap.assign
  rw [StringMap.find, if_neg h]
  exact StringMap.find_filter_ne m t s h

theorem StringMap.count_eq_zero (m : StringMap) (k : String) :
    m.count k = 0 ↔ m.find k = none := by
  unfold StringMap.count
  cases m.find k <;> simp

/-- The array `Get` builds for a string: its characters, then NUL. -/
theorem interned_chars (str : String) :
    ((str.data.take str.length ++
        (List.replicate (str.length + 1) NUL).drop str.length).set str.length NUL) =
      str.data ++ [NUL] := by
  obtain ⟨l⟩ := str
  simp [String.length, List.set_append]

/-- What `Get` does when the string is already interned. -/
theorem BadInterning.Get_of_find (T : BadInterning) (fresh : Ptr) (s : String) (b : CharBuf)
    (h : T.strings_.find s = some b) : T.Get fresh s = (some b, T) := by
  have hc : ¬ T.strings_.count s = 0 := by
    rw [StringMap.count_eq_zero, h]; simp
  simp [BadInterning.Get, hc, h]

/-- What `Get` does when the string is not interned yet. -/
theorem BadInterning.Get_of_absent (T : BadInterning) (fresh : Ptr) (s : String)
    (h : T.strings_.find s = none) :
    T.Get fresh s =
      (some ⟨fresh, s.data ++ [NUL]⟩, ⟨T.strings_.assign s ⟨fresh, s.data ++ [NUL]⟩⟩) := by
  have hc : T.strings_.count s = 0 := (StringMap.count_eq_zero _ _).2 h
  simp only [BadInterning.Get, hc, if_true, interned_chars, StringMap.find_assign_self]

/-- The pointer `Get` returns is not null and is the buffer the map holds for
the string afterwards. -/
theorem BadInterning.Get_find (T : BadInterning) (fresh : Ptr) (s : String) :
    ∃ b, (T.Get fresh s).1 = some b ∧ (T.Get fresh s).2.strings_.find s = some b := by
  cases h : T.strings_.find s with
  | none =>
    rw [BadInterning.Get_of_absent T fresh s h]
    exact ⟨_, rfl, StringMap.find_assign_self _ _ _⟩
  | some b =>
    rw [BadInterning.Get_of_find T fresh s b h]
    exact ⟨b, rfl, h⟩

/-- A buffer the map holds stays where it is, whatever string `Get` is called
with. -/
theorem BadInterning.Get_keeps (T : BadInterning) (fresh : Ptr) (t s : String) (b : CharBuf)
    (h : T.strings_.find s = some b) : (T.Get fresh t).2.strings_.find s = some b := by
  cases ht : T.strings_.find t with
  | none =>
    have hne : t ≠ s := by
      intro e; rw [e, h] at ht; cases ht
    rw [BadInterning.Get_of_absent T fresh t ht]
    show StringMap.find (T.strings_.assign t _) s = some b
    rw [StringMap.find_assign_ne _ _ _ _ hne, h]
  | some c =>
    rw [BadInterning.Get_of_find T fresh t c ht]
    exact h

/-- Calling `Get` keeps the invariant. -/
theorem BadInterning.Get_wf (T : BadInterning) (fresh : Ptr) (s : String)
    (hwf : T.wf = true) : (T.Get fresh s).2.wf = true := by
  cases h : T.strings_.find s with
  | none =>
    rw [BadInterning.Get_of_absent T fresh s h]
    unfold BadInterning.wf at hwf ⊢
    simp only [StringMap.assign, List.all_cons, decide_True, Bool.true_and]
    rw [List.all_eq_true] at hwf ⊢
    intro e he
    exact hwf e (List.mem_of_mem_filter he)
  | some b =>
    rw [BadInterning.Get_of_find T fresh s b h]
    exact hwf

/-- Under the invariant a stored buffer holds its key followed by NUL. -/
theorem BadInterning.wf_find (T : BadInterning) (s : String) (b : CharBuf)
    (hwf : T.wf = true) (h : T.strings_.find s = some b) : b.chars = s.data ++ [NUL] := by
  unfold BadInterning.wf at hwf
  rw [List.all_eq_true] at hwf
  have := hwf (s, b) (StringMap.find_mem _ _ _ h)
  simpa using this

/-- The string `nl_langinfo` interns for an item. -/
theorem nl_langinfo_eq {σ : Type} (item : Int) (fresh : Ptr) (w : World σ) :
    ∃ key : String, (key = if item = CODESET then "UTF-8" else "Error") ∧
      (nl_langinfo item fresh w).1 = (w.strings.Get fresh key).1 ∧
      (nl_langinfo item fresh w).2.strings = (w.strings.Get fresh key).2 := by
  by_cases h : item = CODESET
  · exact ⟨"UTF-8", by simp [h], by simp [nl_langinfo, h, Log], by simp [nl_langinfo, h, Log]⟩
  · exact ⟨"Error", by simp [h], by simp [nl_langinfo, h, Log], by simp [nl_langinfo, h, Log]⟩

/-- What `Get` and `nl_langinfo` do in a state that satisfies the invariant
of the interner. -/
theorem interner_of_wf {σ : Type} (w : World σ) (fresh : Ptr) (s : String)
    (hwf : w.strings.wf = true) :
    ∃ b, (w.strings.Get fresh s).1 = some b ∧
      b.chars = s.data ++ [NUL] ∧
      (w.strings.Get fresh s).2.wf = true ∧
      (∀ fresh2, (w.strings.Get fresh s).2.Get fresh2 s = (some b, (w.strings.Get fresh s).2)) ∧
      (∀ t fresh3, t ≠ s →
        ((w.strings.Get fresh s).2.Get fresh3 t).2.strings_.find s = some b ∧
        (((w.strings.Get fresh s).2.Get fresh3 t).2.Get fresh s).1 = some b) ∧
      (∀ item, ∃ c, (nl_langinfo item fresh w).1 = some c ∧
        c.chars = (if item = CODESET then "UTF-8" else "Error").data ++ [NUL] ∧
        (∀ item2 fresh2 fresh3,
          (nl_langinfo item fresh3
            (nl_langinfo item2 fresh2 (nl_langinfo item fresh w).2).2).1 = some c)) := by
  obtain ⟨b, hb1, hb2⟩ := BadInterning.Get_find w.strings fresh s
  have hwf2 := BadInterning.Get_wf w.strings fresh s hwf
  refine ⟨b, hb1, BadInterning.wf_find _ s b hwf2 hb2, hwf2, ?_, ?_, ?_⟩
  · intro fresh2
    exact BadInterning.Get_of_find _ fresh2 s b hb2
  · intro t fresh3 _
    have hk := BadInterning.Get_keeps (w.strings.Get fresh s).2 fresh3 t s b hb2
    exact ⟨hk, by rw [BadInterning.Get_of_find _ fresh s b hk]⟩
  · intro item
    obtain ⟨key, hkey, h1, h2⟩ := nl_langinfo_eq item fresh w
    obtain ⟨c, hc1, hc2⟩ := BadInterning.Get_find w.strings fresh key
    have hwfk := BadInterning.Get_wf w.strings fresh key hwf
    refine ⟨c, by rw [h1, hc1], ?_, ?_⟩
    · rw [← hkey]
      exact BadInterning.wf_find _ key c hwfk hc2
    · intro item2 fresh2 fresh3
      obtain ⟨key2, _, _, h2b⟩ := nl_langinfo_eq item2 fresh2 (nl_langinfo item fresh w).2
      obtain ⟨key3, hkey3, h1c, _⟩ :=
        nl_langinfo_eq item fresh3 (nl_langinfo item2 fresh2 (nl_langinfo item fresh w).2).2
      have hk3 : key3 = key := by rw [hkey3, hkey]
      rw [h1c, h2b, h2, hk3]
      have hk := BadInterning.Get_keeps (w.strings.Get fresh key).2 fresh2 key2 key c hc2
      rw [BadInterning.Get_of_find _ fresh3 key c hk]

/-- Every state the interner can reach satisfies the invariant. -/
theorem BadInterning.after_wf (calls : List (Ptr × String)) :
    (BadInterning.after calls).wf = true := by
  have h : ∀ (cs : List (Ptr × String)) (T : BadInterning), T.wf = true →
      (cs.foldl (fun T c => (T.Get c.1 c.2).2) T).wf = true := by
    intro cs
    induction cs with
    | nil => intro T hT; exact hT
    | cons c rest ih =>
      intro T hT
      exact ih _ (BadInterning.Get_wf T c.1 c.2 hT)
  exact h calls ⟨[]⟩ rfl

/-- C10: in every state of the table (the empty table followed by any series
of calls of `Get`), `Get(s)` returns a non-null buffer holding the characters
of `s` followed by NUL; a second `Get(s)` returns the same buffer (same
address, same contents) and leaves the table as it is; a `Get(t)` with `t`
different from `s` leaves the buffer stored for `s` in place, so that a later
`Get(s)` still returns it. Hence `nl_langinfo(item)` returns a buffer holding
`UTF-8` for `CODESET` and `Error` for every other item, and returns that same
buffer again after any other call of `nl_langinfo` in between. -/
theorem interner_idempotent {σ : Type} (w : World σ) (calls : List (Ptr × String))
    (fresh : Ptr) (s : String) :
    ∃ b, ((BadInterning.after calls).Get fresh s).1 = some b ∧
      b.chars = s.data ++ [NUL] ∧
      (∀ fresh2, ((BadInterning.after calls).Get fresh s).2.Get fresh2 s =
        (some b, ((BadInterning.after calls).Get fresh s).2)) ∧
      (∀ t fresh3, t ≠ s →
        (((BadInterning.after calls).Get fresh s).2.Get fresh3 t).2.strings_.find s = some b ∧
        ((((BadInterning.after calls).Get fresh s).2.Get fresh3 t).2.Get fresh s).1 = some b) ∧
      (∀ item, ∃ c,
        (nl_langinfo item fresh { w with strings := BadInterning.after calls }).1 = some c ∧
        c.chars = (if item = CODESET then "UTF-8" else "Error").data ++ [NUL] ∧
        (∀ item2 fresh2 fresh3,
          (nl_langinfo item fresh3
            (nl_langinfo item2 fresh2
              (nl_langinfo item fresh
                { w with strings := BadInterning.after calls }).2).2).1 = some c)) := by
  obtain ⟨b, h1, h2, _, h4, h5, h6⟩ :=
    interner_of_wf { w with strings := BadInterning.after calls } fresh s
      (BadInterning.after_wf calls)
  exact ⟨b, h1, h2, h4, h5, h6⟩

/-- The interner run on the empty table: `nl_langinfo(CODESET)` creates the
buffer for `UTF-8` at the address offered and hands the same one back on the
next call, also after a call for another item. -/
theorem nl_langinfo_examples :
    (nl_langinfo CODESET 4096 World.empty).1 = some ⟨4096, "UTF-8".data ++ [NUL]⟩ ∧
    (nl_langinfo CODESET 8192 (nl_langinfo CODESET 4096 World.empty).2).1 =
      some ⟨4096, "UTF-8".data ++ [NUL]⟩ ∧
    (nl_langinfo CODESET 9000
      (nl_langinfo 7 8192 (nl_langinfo CODESET 4096 World.empty).2).2).1 =
      some ⟨4096, "UTF-8".data ++ [NUL]⟩ ∧
    (nl_langinfo 7 8192 (nl_langinfo CODESET 4096 World.empty).2).1 =
      some ⟨8192, "Error".data ++ [NUL]⟩ := by
  decide

/-! ## getaddrinfo -/

theorem strtol_digits_all (l : List Char) (acc : Nat) (h : l.all isdigit = true) :
    strtol_digits acc l = l.foldl (fun n c => 10 * n + (c.toNat - 48)) acc := by
  induction l generalizing acc with
  | nil => rfl
  | cons c t ih =>
    rw [List.all_cons, Bool.and_eq_true] at h
    simp only [strtol_digits, h.1, if_true, List.foldl_cons]
    exact ih _ h.2

theorem takeWhile_all_digits (l : List Char) (h : l.all isdigit = true) :
    l.takeWhile (fun c => decide (c ≠ NUL)) = l := by
  induction l with
  | nil => rfl
  | cons c t ih =>
    rw [List.all_cons, Bool.and_eq_true] at h
    have hc : c ≠ NUL := by
      intro e
      have := h.1
      rw [e] at this
      exact absurd this (by decide)
    rw [List.takeWhile_cons_of_pos (by simpa using hc), ih h.2]

/-- On a decimal string whose value fits in an `int`, `atoi` is the value. -/
theorem atoi_decimal (service : String) (hdec : is_decimal service = true)
    (hfit : decimal_value service ≤ 2 ^ 31 - 1) :
    atoi service = (decimal_value service : Int) := by
  unfold is_decimal at hdec
  rw [Bool.and_eq_true] at hdec
  obtain ⟨hne, hall⟩ := hdec
  unfold atoi c_chars
  rw [takeWhile_all_digits _ hall]
  unfold decimal_value at hfit ⊢
  cases hd : service.data with
  | nil => rw [hd] at hne; simp at hne
  | cons c t =>
    rw [hd] at hall hfit
    have hcd : isdigit c = true := by
      rw [List.all_cons, Bool.and_eq_true] at hall; exact hall.1
    have hsp : isspace c = false := by
      unfold isdigit at hcd
      unfold isspace
      simp only [decide_eq_true_eq, decide_eq_false_iff_not] at hcd ⊢
      omega
    have hminus : c ≠ '-' := by
      intro e; rw [e] at hcd; exact absurd hcd (by decide)
    have hplus : c ≠ '+' := by
      intro e; rw [e] at hcd; exact absurd hcd (by decide)
    unfold strtol10
    rw [List.dropWhile_cons_of_neg (by simp [hsp])]
    simp only [hminus, hplus, if_false]
    rw [strtol_digits_all _ _ hall]
    have : ((List.foldl (fun n c => 10 * n + (c.toNat - 48)) 0 (c :: t) : Nat) : Int) ≤
        (2 : Int) ^ 31 - 1 := by
      have h2 : ((2 ^ 31 - 1 : Nat) : Int) = (2 : Int) ^ 31 - 1 := by norm_num
      rw [← h2]
      exact Int.ofNat_le.2 hfit
    exact min_eq_left this

/-- The bytes of `htons(p)` in memory are `p` in network byte order. -/
theorem htons_bytes (p : Nat) (hp : p ≤ 65535) :
    to_uint16 (p : Int) = p ∧ uint16_bytes (htons p) = [p / 256, p % 256] := by
  refine ⟨?_, ?_⟩
  · unfold to_uint16
    omega
  · unfold uint16_bytes htons
    have ha : p / 256 < 256 := by omega
    have hb : p % 256 < 256 := Nat.mod_lt _ (by decide)
    generalize p / 256 = a at ha ⊢
    generalize p % 256 = b at hb ⊢
    have h1 : (b * 256 + a % 256) % 256 = a := by omega
    have h2 : (b * 256 + a % 256) / 256 % 256 = b := by omega
    rw [h1, h2]

/-- The IPv4 branch: what `getaddrinfo` returns when `inet_pton(AF_INET, ..)`
accepts the node. -/
theorem getaddrinfo_in4 {σ : Type} (inet_pton : Int → String → Option (List Nat))
    (node service : String) (hints res : addrinfo_ptr) (w : World σ) (a : List Nat)
    (hnn : hints ≠ .null) (hflag : Int.land hints.ai_flags AI_CANONNAME = 0)
    (h4 : inet_pton AF_INET node = some a) :
    getaddrinfo inet_pton node service hints res w =
      some (0,
        .obj 0 AF_INET hints.ai_socktype hints.ai_protocol sizeof_sockaddr_in
          (some (.in4 ⟨AF_INET, htons (to_uint16 (atoi service)), a⟩)) none .null,
        w) := by
  cases hints with
  | null => exact absurd rfl hnn
  | obj fl fam st pr len addr cn next =>
    simp only [addrinfo_ptr.ai_flags] at hflag
    simp [getaddrinfo, hflag, h4, copy_hints, sockaddr.sa_family, addrinfo_ptr.ai_socktype,
      addrinfo_ptr.ai_protocol]

/-- The IPv6 branch: what `getaddrinfo` returns when `inet_pton(AF_INET, ..)`
rejects the node and `inet_pton(AF_INET6, ..)` accepts it. -/
theorem getaddrinfo_in6 {σ : Type} (inet_pton : Int → String → Option (List Nat))
    (node service : String) (hints res : addrinfo_ptr) (w : World σ) (a : List Nat)
    (hnn : hints ≠ .null) (hflag : Int.land hints.ai_flags AI_CANONNAME = 0)
    (h4 : inet_pton AF_INET node = none) (h6 : inet_pton AF_INET6 node = some a) :
    getaddrinfo inet_pton node service hints res w =
      some (0,
        .obj 0 AF_INET6 hints.ai_socktype hints.ai_protocol sizeof_sockaddr_in6
          (some (.in6 ⟨AF_INET6, htons (to_uint16 (atoi service)), 0, a, 0⟩)) none .null,
        w) := by
  cases hints with
  | null => exact absurd rfl hnn
  | obj fl fam st pr len addr cn next =>
    simp only [addrinfo_ptr.ai_flags] at hflag
    simp [getaddrinfo, hflag, h4, h6, copy_hints, sockaddr.sa_family,
      addrinfo_ptr.ai_socktype, addrinfo_ptr.ai_protocol]

/-- C1: when `inet_pton(AF_INET, node)` accepts the node with address `a`, the
service is a decimal string of value `p` in 0..65535 and `hints` (not null)
has no `AI_CANONNAME`, `getaddrinfo` returns 0 and `*res` is one entry
(`ai_next` null) with `ai_family = AF_INET`, `ai_addrlen =
sizeof(sockaddr_in)`, address `a`, and a port whose two bytes in memory are
`p` in network byte order; the world is unchanged. -/
theorem getaddrinfo_ipv4_literal {σ : Type} (inet_pton : Int → String → Option (List Nat))
    (node service : String) (hints res : addrinfo_ptr) (w : World σ) (a : List Nat) (p : Nat)
    (hnode : inet_pton AF_INET node = some a)
    (hdec : is_decimal service = true) (hval : decimal_value service = p) (hp : p ≤ 65535)
    (hnn : hints ≠ .null) (hflag : Int.land hints.ai_flags AI_CANONNAME = 0) :
    getaddrinfo inet_pton node service hints res w =
      some (0,
        .obj 0 AF_INET hints.ai_socktype hints.ai_protocol sizeof_sockaddr_in
          (some (.in4 ⟨AF_INET, htons p, a⟩)) none .null,
        w) ∧
    uint16_bytes (htons p) = [p / 256, p % 256] ∧
    addrinfo_ptr.length
      (.obj 0 AF_INET hints.ai_socktype hints.ai_protocol sizeof_sockaddr_in
        (some (.in4 ⟨AF_INET, htons p, a⟩)) none .null) = 1 := by
  have hat : atoi service = (p : Int) := by
    rw [← hval]
    exact atoi_decimal service hdec (by rw [hval]; omega)
  refine ⟨?_, (htons_bytes p hp).2, rfl⟩
  rw [getaddrinfo_in4 inet_pton node service hints res w a hnn hflag hnode, hat,
    (htons_bytes p hp).1]

/-- C1 at `getaddrinfo("127.0.0.1", "22", hints)` with the C library parser:
one IPv4 entry for 127.0.0.1 whose port bytes are 0, 22. -/
theorem getaddrinfo_ipv4_literal_witness :
    getaddrinfo libc_inet_pton "127.0.0.1" "22" (mk_hints 0 1 6) .null World.empty =
      some (0,
        .obj 0 AF_INET 1 6 sizeof_sockaddr_in
          (some (.in4 ⟨AF_INET, htons 22, [127, 0, 0, 1]⟩)) none .null,
        World.empty) ∧
    uint16_bytes (htons 22) = [0, 22] ∧
    addrinfo_ptr.length
      (.obj 0 AF_INET 1 6 sizeof_sockaddr_in
        (some (.in4 ⟨AF_INET, htons 22, [127, 0, 0, 1]⟩)) none .null) = 1 :=
  getaddrinfo_ipv4_literal libc_inet_pton "127.0.0.1" "22" (mk_hints 0 1 6) .null World.empty
    [127, 0, 0, 1] 22 (by decide) (by decide) (by decide) (by decide) (by decide) (by decide)

/-- C2: with a non-null `hints`, `getaddrinfo` returns `EAI_FAIL` and leaves
`*res` as it was whenever `hints` has `AI_CANONNAME` set (whatever the node
and the service) or `inet_pton` accepts the node neither as `AF_INET` nor as
`AF_INET6`; nothing but the log changes in the world. -/
theorem getaddrinfo_rejects {σ : Type} (inet_pton : Int → String → Option (List Nat))
    (node service : String) (hints res : addrinfo_ptr) (w : World σ)
    (hnn : hints ≠ .null)
    (h : Int.land hints.ai_flags AI_CANONNAME ≠ 0 ∨
      (inet_pton AF_INET node = none ∧ inet_pton AF_INET6 node = none)) :
    ∃ msg, getaddrinfo inet_pton node service hints res w =
        some (EAI_FAIL, res, Log msg [] w) ∧
      (Log msg [] w).errno = w.errno ∧ (Log msg [] w).posix = w.posix ∧ EAI_FAIL ≠ 0 := by
  cases hints with
  | null => exact absurd rfl hnn
  | obj fl fam st pr len addr cn next =>
    simp only [addrinfo_ptr.ai_flags] at h
    by_cases hf : Int.land fl AI_CANONNAME = 0
    · rcases h with h | ⟨h4, h6⟩
      · exact absurd hf h
      · exact ⟨"getaddrinfo(): Cannot parse address.",
          by simp [getaddrinfo, hf, h4, h6], rfl, rfl, by decide⟩
    · exact ⟨"getaddrinfo(): AI_CANONNAME not implemented.",
        by simp [getaddrinfo, hf], rfl, rfl, by decide⟩

/-- C2 at `getaddrinfo("example.com", "22", hints)` with the C library
parser: `EAI_FAIL`, `*res` untouched. -/
theorem getaddrinfo_rejects_witness :
    ∃ msg, getaddrinfo libc_inet_pton "example.com" "22" (mk_hints 0 1 6) .null World.empty =
        some (EAI_FAIL, .null, Log msg [] World.empty) ∧
      (Log msg [] World.empty).errno = World.empty.errno ∧
      (Log msg [] World.empty).posix = World.empty.posix ∧ EAI_FAIL ≠ 0 :=
  getaddrinfo_rejects libc_inet_pton "example.com" "22" (mk_hints 0 1 6) .null World.empty
    (by decide) (Or.inr ⟨by decide, by decide⟩)

/-- C3 as stated fails: with the node `127.0.0.1` and the services `ssh` and
the empty string, `getaddrinfo` returns 0, not `EAI_FAIL`, and stores an
address with port 0. -/
theorem getaddrinfo_service_not_checked :
    getaddrinfo libc_inet_pton "127.0.0.1" "ssh" (mk_hints 0 1 6) .null World.empty =
      some (0,
        .obj 0 AF_INET 1 6 sizeof_sockaddr_in (some (.in4 ⟨AF_INET, 0, [127, 0, 0, 1]⟩)) none
          .null,
        World.empty) ∧
    getaddrinfo libc_inet_pton "127.0.0.1" "" (mk_hints 0 1 6) .null World.empty =
      some (0,
        .obj 0 AF_INET 1 6 sizeof_sockaddr_in (some (.in4 ⟨AF_INET, 0, [127, 0, 0, 1]⟩)) none
          .null,
        World.empty) ∧
    (0 : Int) ≠ EAI_FAIL := by
  decide

/-- C3 amended: the service is not validated. For every node `inet_pton`
accepts as `AF_INET` or `AF_INET6`, a non-null `hints` without `AI_CANONNAME`
and every service string, `getaddrinfo` returns 0 (which is not `EAI_FAIL`)
and stores an entry whose port is `htons(atoi(service))`; `atoi` gives 0,
hence port 0, for a service whose first character is not white space, a sign
or a digit, such as `ssh`, and for the empty string. -/
theorem getaddrinfo_any_service {σ : Type} (inet_pton : Int → String → Option (List Nat))
    (node service : String) (hints res : addrinfo_ptr) (w : World σ)
    (hnn : hints ≠ .null) (hflag : Int.land hints.ai_flags AI_CANONNAME = 0)
    (hlit : (inet_pton AF_INET node).isSome = true ∨ (inet_pton AF_INET6 node).isSome = true) :
    (∃ ai addr, getaddrinfo inet_pton node service hints res w = some (0, ai, w) ∧
      ai.ai_addr = some addr ∧ addr.port = htons (to_uint16 (atoi service))) ∧
    (0 : Int) ≠ EAI_FAIL ∧
    ((∀ c ∈ (c_chars service).head?,
        isspace c = false ∧ isdigit c = false ∧ c ≠ '-' ∧ c ≠ '+') → atoi service = 0) ∧
    atoi "ssh" = 0 ∧ atoi "" = 0 ∧ htons (to_uint16 0) = 0 := by
  refine ⟨?_, by decide, ?_, by decide, by decide, by decide⟩
  · cases h4 : inet_pton AF_INET node with
    | some a =>
      exact ⟨_, _, getaddrinfo_in4 inet_pton node service hints res w a hnn hflag h4, rfl, rfl⟩
    | none =>
      cases h6 : inet_pton AF_INET6 node with
      | some a =>
        exact ⟨_, _, getaddrinfo_in6 inet_pton node service hints res w a hnn hflag h4 h6,
          rfl, rfl⟩
      | none => simp [h4, h6] at hlit
  · intro hc
    unfold atoi
    cases hl : c_chars service with
    | nil => rfl
    | cons c t =>
      rw [hl] at hc
      obtain ⟨hsp, hdg, hm, hpl⟩ := hc c (by simp)
      unfold strtol10
      rw [List.dropWhile_cons_of_neg (by simp [hsp])]
      simp [hm, hpl, strtol_digits, hdg]

/-- C3 amended, at `getaddrinfo("127.0.0.1", "ssh", hints)`. -/
theorem getaddrinfo_any_service_witness :
    ∃ ai addr, getaddrinfo libc_inet_pton "127.0.0.1" "ssh" (mk_hints 0 1 6) .null
        World.empty = some (0, ai, World.empty) ∧
      ai.ai_addr = some addr ∧ addr.port = htons (to_uint16 (atoi "ssh")) :=
  (getaddrinfo_any_service libc_inet_pton "127.0.0.1" "ssh" (mk_hints 0 1 6) .null World.empty
    (by decide) (by decide) (Or.inl (by decide))).1

/-- C4: when `inet_pton(AF_INET, node)` rejects the node and
`inet_pton(AF_INET6, node)` accepts it with the 16 bytes `a`, and `hints` (not
null) has no `AI_CANONNAME`, `getaddrinfo` returns 0 and `*res` is one entry
with `ai_family = AF_INET6`, `ai_addrlen = sizeof(sockaddr_in6)`, address
bytes `a`, port `htons(atoi(service))` (in memory: the value `p` of a decimal
service in 0..65535 in network byte order), and `ai_socktype`, `ai_protocol`
those of `hints`. The IPv4 parse comes first: a node `inet_pton(AF_INET, ..)`
accepts is returned as `AF_INET`, whatever `inet_pton(AF_INET6, ..)` says. -/
theorem getaddrinfo_ipv6_literal {σ : Type} (inet_pton : Int → String → Option (List Nat))
    (node service : String) (hints res : addrinfo_ptr) (w : World σ) (a : List Nat)
    (h4 : inet_pton AF_INET node = none) (h6 : inet_pton AF_INET6 node = some a)
    (hnn : hints ≠ .null) (hflag : Int.land hints.ai_flags AI_CANONNAME = 0) :
    getaddrinfo inet_pton node service hints res w =
      some (0,
        .obj 0 AF_INET6 hints.ai_socktype hints.ai_protocol sizeof_sockaddr_in6
          (some (.in6 ⟨AF_INET6, htons (to_uint16 (atoi service)), 0, a, 0⟩)) none .null,
        w) ∧
    addrinfo_ptr.length
      (.obj 0 AF_INET6 hints.ai_socktype hints.ai_protocol sizeof_sockaddr_in6
        (some (.in6 ⟨AF_INET6, htons (to_uint16 (atoi service)), 0, a, 0⟩)) none .null) = 1 ∧
    (∀ p, is_decimal service = true → decimal_value service = p → p ≤ 65535 →
      uint16_bytes (htons (to_uint16 (atoi service))) = [p / 256, p % 256]) ∧
    (∀ (pton : Int → String → Option (List Nat)) (node2 : String) (a4 : List Nat),
      pton AF_INET node2 = some a4 →
      ∃ ai, getaddrinfo pton node2 service hints res w = some (0, ai, w) ∧
        ai.ai_family = AF_INET ∧ ai.ai_addr.map sockaddr.sa_family = some AF_INET) := by
  refine ⟨getaddrinfo_in6 inet_pton node service hints res w a hnn hflag h4 h6, rfl, ?_, ?_⟩
  · intro p hdec hval hp
    have hat : atoi service = (p : Int) := by
      rw [← hval]
      exact atoi_decimal service hdec (by rw [hval]; omega)
    rw [hat, (htons_bytes p hp).1]
    exact (htons_bytes p hp).2
  · intro pton node2 a4 hn
    exact ⟨_, getaddrinfo_in4 pton node2 service hints res w a4 hnn hflag hn, rfl, rfl⟩

/-- C4 at `getaddrinfo("::1", "22", hints)` with the C library parser. -/
theorem getaddrinfo_ipv6_literal_witness :
    getaddrinfo libc_inet_pton "::1" "22" (mk_hints 0 1 6) .null World.empty =
      some (0,
        .obj 0 AF_INET6 1 6 sizeof_sockaddr_in6
          (some (.in6 ⟨AF_INET6, htons (to_uint16 (atoi "22")), 0,
            [0, 0, 0, 0, 0, 0, 0, 0, 0, 0, 0, 0, 0, 0, 0, 1], 0⟩)) none .null,
        World.empty) ∧
    uint16_bytes (htons (to_uint16 (atoi "22"))) = [0, 22] :=
  ⟨(getaddrinfo_ipv6_literal libc_inet_pton "::1" "22" (mk_hints 0 1 6) .null World.empty
      [0, 0, 0, 0, 0, 0, 0, 0, 0, 0, 0, 0, 0, 0, 0, 1]
      (by decide) (by decide) (by decide) (by decide)).1,
    (getaddrinfo_ipv6_literal libc_inet_pton "::1" "22" (mk_hints 0 1 6) .null World.empty
      [0, 0, 0, 0, 0, 0, 0, 0, 0, 0, 0, 0, 0, 0, 0, 1]
      (by decide) (by decide) (by decide) (by decide)).2.2.1 22 (by decide) (by decide)
      (by decide)⟩

end PepperWrapper
